import Mathlib

/-!
Verification of the resilience-control utilities of the numenta-apps
repository (`nta.utils.error_handling`): the bounded retry executor
(`retry`) and the fail-fast guard (`abortProgramOnAnyException`).

The module `nta/utils/error_handling.py` itself is not shipped under
`src/` — only its unit tests (`src/nta.utils/tests/unit/error_handling_test.py`)
are.  Both operations are therefore modelled from the specification
(spec.md §3, §4.1, §4.2), and the model is cross-checked against the
behavior the unit tests assert.

Modelling decisions:
* times/delays are rationals (`ℚ`), since the spec only says "numeric";
* a failure carries a primary `category` and the list `tags` of all
  categories in its hierarchy (the category itself and its ancestors),
  so that `retryExceptions` membership is a hierarchy test, as §9 requires;
* the possibly non-terminating retry loop is embedded with explicit fuel:
  `none` means the loop did not finish within the given number of
  attempts, so "the loop terminates" is `∃ fuel o, … = some o`;
* the external effects (sleeps, operation invocations, the process
  termination primitive) are returned as explicit traces in the outcome.
-/

/-- A failure (exception) value: its own category, the list of all
categories it belongs to through the hierarchy (its own category and all
ancestor categories, like a Python MRO), and an opaque payload. -/
structure Failure where
  category : Nat
  tags : List Nat
  payload : String
deriving Repr, DecidableEq

/-- Modelled from the spec (§3 RetryPolicy; the source module
`nta/utils/error_handling.py` is missing from `src/`): the immutable
retry policy supplied at wrap time.  `retryExceptions = none` is the
default "all categories retryable"; `retryFilter = none` means no filter
is configured. -/
structure RetryPolicy where
  timeoutSec : ℚ
  initialRetryDelaySec : ℚ
  maxRetryDelaySec : ℚ
  retryExceptions : Option (List Nat) := none
  retryFilter : Option (Failure → Nat → ℚ → Bool) := none

/-- Hierarchy membership test of a failure against `retryExceptions`
(§3: set of failure categories eligible for retry, default all; §9:
type-hierarchy membership, not string matching).  A failure is eligible
when any category in its hierarchy is listed. -/
def isRetryable (retryExceptions : Option (List Nat)) (f : Failure) : Bool :=
  match retryExceptions with
  | none => true
  | some cats => f.tags.any (fun t => cats.contains t)

/-- Consult the optional retry filter (§3, §4.1c): an absent filter
accepts every failure; a configured filter is asked
`(failure, attemptCount, elapsed)`. -/
def passesFilter (retryFilter : Option (Failure → Nat → ℚ → Bool))
    (f : Failure) (attemptCount : Nat) (elapsed : ℚ) : Bool :=
  match retryFilter with
  | none => true
  | some flt => flt f attemptCount elapsed

/-- Observable outcome of one call to the wrapped operation: the final
result (the operation's value, or the propagated failure), the number of
invocations of the underlying operation, the exact sequence of sleep
durations performed, and the final value of the `elapsed` counter. -/
structure RetryOutcome (α : Type) where
  result : Except Failure α
  attempts : Nat
  sleeps : List ℚ
  elapsedFinal : ℚ
deriving Repr

/-- Modelled from the spec (§4.1 RetryExecutor, steps a–e; the source
module `nta/utils/error_handling.py` is missing from `src/`): the retry
loop for `timeoutSec > 0`.  `op k` is the result of the k-th (0-based)
invocation of the operation; `elapsed`, `nextDelay` and `attemptCount`
are the `ExecutionState` of §3; `fuel` bounds the number of attempts the
embedding is allowed to unfold (`none` = still looping).  On a failure
the checks run in spec order: retryExceptions membership, then the
filter, then the budget check `elapsed >= timeoutSec`; otherwise the
loop sleeps `nextDelay`, adds it to `elapsed`, doubles the delay capped
at `maxRetryDelaySec`, and repeats. -/
def retryLoop (policy : RetryPolicy) (op : Nat → Except Failure α)
    (elapsed nextDelay : ℚ) (attemptCount : Nat) :
    Nat → Option (RetryOutcome α)
  | 0 => none
  | fuel + 1 =>
    match op attemptCount with
    | .ok v => some ⟨.ok v, 1, [], elapsed⟩
    | .error f =>
      if isRetryable policy.retryExceptions f = false then
        some ⟨.error f, 1, [], elapsed⟩
      else if passesFilter policy.retryFilter f (attemptCount + 1) elapsed = false then
        some ⟨.error f, 1, [], elapsed⟩
      else if policy.timeoutSec ≤ elapsed then
        some ⟨.error f, 1, [], elapsed⟩
      else
        (retryLoop policy op (elapsed + nextDelay)
            (min (nextDelay * 2) policy.maxRetryDelaySec) (attemptCount + 1) fuel).map
          fun o => ⟨o.result, o.attempts + 1, nextDelay :: o.sleeps, o.elapsedFinal⟩

/-- Modelled from the spec (§4.1 steps 1–2; the source module
`nta/utils/error_handling.py` is missing from `src/`): the wrapped
operation produced by the retry decorator.  `timeoutSec <= 0` is the
pure pass-through fast path: exactly one invocation, no sleep; otherwise
the loop starts from `elapsed = 0`, `nextDelay = initialRetryDelaySec`,
`attemptCount = 0`. -/
def retry (policy : RetryPolicy) (op : Nat → Except Failure α) (fuel : Nat) :
    Option (RetryOutcome α) :=
  if policy.timeoutSec ≤ 0 then
    some ⟨op 0, 1, [], 0⟩
  else
    retryLoop policy op 0 policy.initialRetryDelaySec 0 fuel

/-- Observable outcome of one call through the fail-fast guard: the
final result, the list of argument values the underlying operation was
invoked with (in order), and the list of exit codes passed to the
process-termination primitive (in order). -/
structure GuardOutcome (β α : Type) where
  result : Except Failure α
  opCalls : List β
  exitCodes : List Int
deriving Repr

/-- Modelled from the spec (§4.2 FailFastGuard; the source module
`nta/utils/error_handling.py` is missing from `src/`): the wrapped
operation invokes `op` once with the forwarded arguments; on success the
result passes through untouched and the termination primitive is never
invoked; on any escaping failure the guard requests process termination
with `exitCode` and then re-raises the original failure. -/
def abortProgramOnAnyException (exitCode : Int) (op : β → Except Failure α)
    (args : β) : GuardOutcome β α :=
  match op args with
  | .ok v => ⟨.ok v, [args], []⟩
  | .error f => ⟨.error f, [args], [exitCode]⟩

/-- An operation that fails with `f` on every invocation. -/
def alwaysFail (f : Failure) : Nat → Except Failure Unit :=
  fun _ => .error f

/-- A generic test failure whose hierarchy is just the root category. -/
def testFailure : Failure := ⟨0, [0], "Test exception"⟩

/-- The nominal delay sequence: `delaySeq d m k` is the value of
`nextDelay` after `k` completed sleeps, starting at `d` and doubling
after each sleep, capped at `m`. -/
def delaySeq (d m : ℚ) : Nat → ℚ
  | 0 => d
  | k + 1 => min (delaySeq d m k * 2) m

lemma delaySeq_shift (d m : ℚ) (k : Nat) :
    delaySeq d m (k + 1) = delaySeq (min (d * 2) m) m k := by
  induction k with
  | zero => rfl
  | succ k ih =>
      calc delaySeq d m (k + 1 + 1) = min (delaySeq d m (k + 1) * 2) m := rfl
        _ = min (delaySeq (min (d * 2) m) m k * 2) m := by rw [ih]
        _ = delaySeq (min (d * 2) m) m (k + 1) := rfl

lemma delaySeq_closed (d m : ℚ) (h0 : 0 ≤ d) (hdm : d ≤ m) (k : Nat) :
    delaySeq d m k = min (d * 2 ^ k) m := by
  induction k with
  | zero => simp [delaySeq, min_eq_left hdm]
  | succ k ih =>
      have hd2 : (0 : ℚ) ≤ d * 2 ^ k := by positivity
      have hm0 : (0 : ℚ) ≤ m := le_trans h0 hdm
      rw [delaySeq, ih, pow_succ]
      rcases le_total (d * 2 ^ k) m with h | h
      · rw [min_eq_left h, mul_assoc]
      · rw [min_eq_right h, min_eq_right (by linarith),
          min_eq_right (by nlinarith)]

/-- Characterization of every terminating run of the retry loop against an
always-failing operation whose failure is retryable and accepted by the
filter: the failure propagates, each attempt after the first is preceded
by exactly one sleep, `elapsed` advances exactly by the completed sleeps,
the k-th sleep is the k-th nominal delay, each sleep starts strictly under
the budget, and the run ends with the budget reached or exceeded. -/
lemma retryLoop_alwaysFail_spec (policy : RetryPolicy) (f : Failure)
    (hr : isRetryable policy.retryExceptions f = true)
    (hacc : ∀ n e, passesFilter policy.retryFilter f n e = true) :
    ∀ (fuel : Nat) (elapsed nextDelay : ℚ) (ac : Nat) (o : RetryOutcome Unit),
      retryLoop policy (alwaysFail f) elapsed nextDelay ac fuel = some o →
      o.result = .error f ∧
      o.attempts = o.sleeps.length + 1 ∧
      o.elapsedFinal = elapsed + o.sleeps.sum ∧
      (∀ k (hk : k < o.sleeps.length),
          o.sleeps.get ⟨k, hk⟩ = delaySeq nextDelay policy.maxRetryDelaySec k) ∧
      (∀ k, k < o.sleeps.length →
          elapsed + (o.sleeps.take k).sum < policy.timeoutSec) ∧
      policy.timeoutSec ≤ elapsed + o.sleeps.sum := by
  intro fuel
  induction fuel with
  | zero =>
      intro elapsed nextDelay ac o h
      simp [retryLoop] at h
  | succ fuel ih =>
      intro elapsed nextDelay ac o h
      simp only [retryLoop, alwaysFail, hr, hacc, Bool.true_eq_false,
        if_false] at h
      by_cases hto : policy.timeoutSec ≤ elapsed
      · rw [if_pos hto, Option.some_inj] at h
        subst h
        refine ⟨rfl, rfl, by simp, ?_, ?_, by simpa using hto⟩
        · intro k hk
          simp at hk
        · intro k hk
          simp at hk
      · rw [if_neg hto] at h
        rcases Option.map_eq_some'.mp h with ⟨o', ho', rfl⟩
        obtain ⟨hres, hatt, hel, hget, hpre, hbud⟩ :=
          ih (elapsed + nextDelay)
            (min (nextDelay * 2) policy.maxRetryDelaySec) (ac + 1) o' ho'
        refine ⟨hres, ?_, ?_, ?_, ?_, ?_⟩
        · simpa using hatt
        · simp only [hel, List.sum_cons]
          ring
        · intro k hk
          match k with
          | 0 => rfl
          | k + 1 =>
              have hk' : k < o'.sleeps.length := by
                simpa using hk
              calc ((⟨o'.result, o'.attempts + 1, nextDelay :: o'.sleeps,
                      o'.elapsedFinal⟩ : RetryOutcome Unit).sleeps).get ⟨k + 1, hk⟩
                    = o'.sleeps.get ⟨k, hk'⟩ := rfl
                _ = delaySeq (min (nextDelay * 2) policy.maxRetryDelaySec)
                      policy.maxRetryDelaySec k := hget k hk'
                _ = delaySeq nextDelay policy.maxRetryDelaySec (k + 1) :=
                      (delaySeq_shift nextDelay policy.maxRetryDelaySec k).symm
        · intro k hk
          match k with
          | 0 =>
              simpa using lt_of_not_le hto
          | k + 1 =>
              have hk' : k < o'.sleeps.length := by
                simpa using hk
              have := hpre k hk'
              simp only [List.take_succ_cons, List.sum_cons]
              linarith
        · simp only [List.sum_cons]
          linarith

/-- A constantly-true retry filter is indistinguishable from no filter at
the level of the retry loop. -/
lemma retryLoop_trueFilter (policy : RetryPolicy) (op : Nat → Except Failure α) :
    ∀ (fuel : Nat) (elapsed nextDelay : ℚ) (ac : Nat),
      retryLoop { policy with retryFilter := some fun _ _ _ => true }
          op elapsed nextDelay ac fuel
        = retryLoop { policy with retryFilter := none }
            op elapsed nextDelay ac fuel := by
  intro fuel
  induction fuel with
  | zero => intro _ _ _; rfl
  | succ fuel ih =>
      intro elapsed nextDelay ac
      simp only [retryLoop]
      cases hop : op ac with
      | ok v => rfl
      | error f =>
          simp only [passesFilter]
          rw [ih]

/-- With a zero initial delay (and a nonnegative cap) the retry loop over
an always-failing retryable failure never finishes: `elapsed` stays at 0,
strictly under any positive budget, for every amount of fuel. -/
lemma retryLoop_zeroDelay_none (policy : RetryPolicy) (f : Failure)
    (ht : 0 < policy.timeoutSec) (hm : 0 ≤ policy.maxRetryDelaySec)
    (hr : isRetryable policy.retryExceptions f = true)
    (hacc : ∀ n e, passesFilter policy.retryFilter f n e = true) :
    ∀ (fuel : Nat) (ac : Nat),
      retryLoop policy (alwaysFail f) 0 0 ac fuel = none := by
  intro fuel
  induction fuel with
  | zero => intro _; rfl
  | succ fuel ih =>
      intro ac
      simp only [retryLoop, alwaysFail, hr, hacc, Bool.true_eq_false,
        if_false, if_neg (not_le.mpr ht)]
      rw [show (0 : ℚ) + 0 = 0 by norm_num,
        show min ((0 : ℚ) * 2) policy.maxRetryDelaySec = 0 by
          simpa using min_eq_left hm,
        ih]
      rfl

/-- If the budget is already covered by `fuel` sleeps of at least the
initial delay each, the retry loop finishes within `fuel + 1` attempts:
every branch of the loop body returns except the sleeping branch, which
strictly decreases the remaining required budget. -/
lemma retryLoop_isSome_of_budget (policy : RetryPolicy)
    (op : Nat → Except Failure α)
    (h0 : 0 ≤ policy.initialRetryDelaySec)
    (hdm : policy.initialRetryDelaySec ≤ policy.maxRetryDelaySec) :
    ∀ (fuel : Nat) (elapsed nextDelay : ℚ) (ac : Nat),
      policy.initialRetryDelaySec ≤ nextDelay →
      policy.timeoutSec ≤ elapsed + fuel * policy.initialRetryDelaySec →
      (retryLoop policy op elapsed nextDelay ac (fuel + 1)).isSome := by
  intro fuel
  induction fuel with
  | zero =>
      intro elapsed nextDelay ac _ hbud
      have hto : policy.timeoutSec ≤ elapsed := by
        simpa using hbud
      cases hop : op ac with
      | ok v => simp [retryLoop, hop]
      | error f =>
          simp only [retryLoop, hop]
          by_cases h1 : isRetryable policy.retryExceptions f = false
          · rw [if_pos h1]; rfl
          · rw [if_neg h1]
            by_cases h2 : passesFilter policy.retryFilter f (ac + 1) elapsed = false
            · rw [if_pos h2]; rfl
            · rw [if_neg h2, if_pos hto]; rfl
  | succ fuel ih =>
      intro elapsed nextDelay ac hd hbud
      cases hop : op ac with
      | ok v => simp [retryLoop, hop]
      | error f =>
          simp only [retryLoop, hop]
          by_cases h1 : isRetryable policy.retryExceptions f = false
          · rw [if_pos h1]; rfl
          · rw [if_neg h1]
            by_cases h2 : passesFilter policy.retryFilter f (ac + 1) elapsed = false
            · rw [if_pos h2]; rfl
            · rw [if_neg h2]
              by_cases hto : policy.timeoutSec ≤ elapsed
              · rw [if_pos hto]; rfl
              · rw [if_neg hto]
                have hrec : (retryLoop policy op (elapsed + nextDelay)
                    (min (nextDelay * 2) policy.maxRetryDelaySec) (ac + 1)
                    (fuel + 1)).isSome := by
                  refine ih (elapsed + nextDelay)
                    (min (nextDelay * 2) policy.maxRetryDelaySec) (ac + 1) ?_ ?_
                  · have hd0 : (0 : ℚ) ≤ nextDelay := le_trans h0 hd
                    exact le_min (by linarith) hdm
                  · push_cast at hbud ⊢
                    linarith
                obtain ⟨o', ho'⟩ := Option.isSome_iff_exists.mp hrec
                have hfold : (Option.map
                    (fun o : RetryOutcome α =>
                      (⟨o.result, o.attempts + 1, nextDelay :: o.sleeps,
                        o.elapsedFinal⟩ : RetryOutcome α))
                    (retryLoop policy op (elapsed + nextDelay)
                      (min (nextDelay * 2) policy.maxRetryDelaySec) (ac + 1)
                      (fuel + 1))).isSome = true := by
                  rw [ho']
                  rfl
                exact hfold

/-- With a positive initial delay (and the §3 policy invariant
`initialRetryDelaySec <= maxRetryDelaySec`) the retry wrapper over any
operation finishes for some finite fuel: enough sleeps of at least the
initial delay eventually cover any budget. -/
lemma retry_terminates_of_pos_delay (policy : RetryPolicy)
    (op : Nat → Except Failure α)
    (h0 : 0 < policy.initialRetryDelaySec)
    (hdm : policy.initialRetryDelaySec ≤ policy.maxRetryDelaySec) :
    ∃ fuel o, retry policy op fuel = some o := by
  by_cases ht : policy.timeoutSec ≤ 0
  · exact ⟨1, ⟨op 0, 1, [], 0⟩, by simp [retry, ht]⟩
  · obtain ⟨n, hn⟩ :=
      exists_nat_ge (policy.timeoutSec / policy.initialRetryDelaySec)
    have hbud : policy.timeoutSec ≤ 0 + n * policy.initialRetryDelaySec := by
      rw [zero_add]
      rw [div_le_iff₀ h0] at hn
      linarith
    have hsome := retryLoop_isSome_of_budget policy op (le_of_lt h0) hdm n 0
      policy.initialRetryDelaySec 0 le_rfl hbud
    obtain ⟨o, ho⟩ := Option.isSome_iff_exists.mp hsome
    refine ⟨n + 1, o, ?_⟩
    simp only [retry, if_neg ht]
    exact ho

/-- A failure in a child category whose hierarchy contains the parent
category 100 (mirrors `TestChildException(TestParentException)` of the
unit tests). -/
def childFailure : Failure := ⟨101, [101, 100, 0], "Test exception"⟩

/-- Claim C1: for a retry policy with `timeoutSec = 30`,
`initialRetryDelaySec = 2`, `maxRetryDelaySec = 10` (default
`retryExceptions`, no filter) and an operation that fails on every
invocation, the wrapped call performs exactly the sleep sequence
`[2, 4, 8, 10, 10]` and invokes the operation exactly 6 times before
propagating the failure. -/
theorem C1_retry_schedule_30_2_10 (f : Failure) :
    retry { timeoutSec := 30, initialRetryDelaySec := 2, maxRetryDelaySec := 10 }
      (alwaysFail f) 6
      = some ⟨.error f, 6, [2, 4, 8, 10, 10], 34⟩ := by
  simp only [retry, retryLoop, alwaysFail, isRetryable, passesFilter]
  norm_num

/-- Claim C2: for every wrapped operation and every exit code, if the
operation raises any failure whatsoever (of any category, including
abort-style exit requests such as SystemExit), the fail-fast guard
invokes the process-termination primitive exactly once with the
configured exit code, and the original failure — with its original
category — is still observed by the immediate caller. -/
theorem C2_failfast_aborts_and_reraises {β α : Type} (exitCode : Int)
    (op : β → Except Failure α) (args : β) (f : Failure)
    (h : op args = .error f) :
    abortProgramOnAnyException exitCode op args
      = ⟨.error f, [args], [exitCode]⟩ := by
  simp [abortProgramOnAnyException, h]

theorem C2_failfast_witness :
    abortProgramOnAnyException 2
      (fun _ : Nat => (Except.error ⟨7, [7, 1], "SystemExit"⟩ : Except Failure Unit)) 5
      = ⟨.error ⟨7, [7, 1], "SystemExit"⟩, [5], [2]⟩ :=
  C2_failfast_aborts_and_reraises 2 _ 5 ⟨7, [7, 1], "SystemExit"⟩ rfl

/-- Claim C3: for every retry policy with `timeoutSec <= 0` and every
operation, the retry wrapper invokes the operation exactly once, performs
no sleep, and on failure propagates the original failure immediately
(the result is `op 0`, whatever it is). -/
theorem C3_fast_path {α : Type} (policy : RetryPolicy)
    (h : policy.timeoutSec ≤ 0) (op : Nat → Except Failure α) (fuel : Nat) :
    retry policy op fuel = some ⟨op 0, 1, [], 0⟩ := by
  simp [retry, h]

theorem C3_fast_path_witness :
    retry { timeoutSec := 0, initialRetryDelaySec := 1/5, maxRetryDelaySec := 10 }
      (alwaysFail testFailure) 3
      = some ⟨.error testFailure, 1, [], 0⟩ :=
  C3_fast_path _ (by norm_num) _ 3

/-- Claim C4: for every retry policy and every operation raising a
failure whose category hierarchy is not in `retryExceptions`, the retry
wrapper performs zero sleeps and makes no further attempts: the original
failure propagates on the first attempt regardless of the remaining
timeout budget (the exclusion check precedes the budget check). -/
theorem C4_excluded_category_immediate {α : Type} (policy : RetryPolicy)
    (op : Nat → Except Failure α) (f : Failure) (fuel : Nat)
    (hop : op 0 = .error f)
    (hex : isRetryable policy.retryExceptions f = false) :
    retry policy op (fuel + 1) = some ⟨.error f, 1, [], 0⟩ := by
  by_cases ht : policy.timeoutSec ≤ 0
  · simp [retry, ht, hop]
  · simp only [retry, if_neg ht, retryLoop, hop, hex, if_true]

theorem C4_excluded_witness :
    retry { timeoutSec := 1, initialRetryDelaySec := 1,
            maxRetryDelaySec := 10, retryExceptions := some [100] }
      (alwaysFail ⟨200, [200, 0], "Test exception"⟩) 3
      = some ⟨.error ⟨200, [200, 0], "Test exception"⟩, 1, [], 0⟩ :=
  C4_excluded_category_immediate _ _ _ 2 rfl rfl

/-- Claim C5: with a configured `retryFilter`, (a) if the filter vetoes an
otherwise-retryable failure on the first attempt, zero sleeps occur and
the failure propagates on the first attempt; (b) a filter that always
returns true makes the wrapped call behave identically to the same
policy with no filter configured. -/
theorem C5_retry_filter (policy : RetryPolicy)
    (flt : Failure → Nat → ℚ → Bool) (f : Failure)
    (op : Nat → Except Failure Unit) (fuel : Nat)
    (hop : op 0 = .error f)
    (hret : isRetryable policy.retryExceptions f = true) :
    (policy.retryFilter = some flt → flt f 1 0 = false →
        retry policy op (fuel + 1) = some ⟨.error f, 1, [], 0⟩) ∧
    retry { policy with retryFilter := some fun _ _ _ => true } op fuel
      = retry { policy with retryFilter := none } op fuel := by
  constructor
  · intro hfil hveto
    by_cases ht : policy.timeoutSec ≤ 0
    · simp [retry, ht, hop]
    · simp only [retry, if_neg ht, retryLoop, hop, hret, passesFilter, hfil,
        hveto, Bool.true_eq_false, if_false, if_true]
  · by_cases ht : policy.timeoutSec ≤ 0
    · simp [retry, ht]
    · simp only [retry, if_neg ht]
      exact retryLoop_trueFilter policy op fuel 0 policy.initialRetryDelaySec 0

theorem C5_retry_filter_witness :
    (retry { timeoutSec := 1, initialRetryDelaySec := 1, maxRetryDelaySec := 10,
             retryExceptions := some [100], retryFilter := some fun _ _ _ => false }
      (alwaysFail childFailure) 3
      = some ⟨.error childFailure, 1, [], 0⟩) ∧
    retry { timeoutSec := 1, initialRetryDelaySec := 1, maxRetryDelaySec := 10,
            retryExceptions := some [100], retryFilter := some fun _ _ _ => true }
      (alwaysFail childFailure) 2
      = retry { timeoutSec := 1, initialRetryDelaySec := 1, maxRetryDelaySec := 10,
                retryExceptions := some [100], retryFilter := none }
        (alwaysFail childFailure) 2 :=
  ⟨(C5_retry_filter
      { timeoutSec := 1, initialRetryDelaySec := 1, maxRetryDelaySec := 10,
          retryExceptions := some [100], retryFilter := some fun _ _ _ => false }
      (fun _ _ _ => false) childFailure (alwaysFail childFailure) 2 rfl rfl).1 rfl rfl,
   (C5_retry_filter
      { timeoutSec := 1, initialRetryDelaySec := 1, maxRetryDelaySec := 10,
          retryExceptions := some [100], retryFilter := some fun _ _ _ => false }
      (fun _ _ _ => false) childFailure (alwaysFail childFailure) 2 rfl rfl).2⟩

/-- Claim C6: retry eligibility is decided by failure-category hierarchy
membership, not exact match: under
`timeoutSec = 1, initialRetryDelaySec = 1, maxRetryDelaySec = 10,
retryExceptions = {100}`, an operation always raising a failure of a
child category of 100 (not equal to 100) is retried, and exactly one
sleep occurs before the failure propagates after the second attempt. -/
theorem C6_subcategory_retried :
    (childFailure.category ≠ 100 ∧ 100 ∈ childFailure.tags) ∧
    retry { timeoutSec := 1, initialRetryDelaySec := 1,
            maxRetryDelaySec := 10, retryExceptions := some [100] }
      (alwaysFail childFailure) 2
      = some ⟨.error childFailure, 2, [1], 1⟩ := by
  refine ⟨⟨by decide, by decide⟩, ?_⟩
  simp only [retry, retryLoop, alwaysFail, isRetryable, passesFilter, childFailure]
  norm_num

/-- Claim C7: for every operation that succeeds, the fail-fast guard
never invokes the termination primitive, forwards the arguments
unchanged to the operation, invokes it exactly once, and returns its
result unchanged. -/
theorem C7_failfast_passthrough {β α : Type} (exitCode : Int)
    (op : β → Except Failure α) (args : β) (v : α)
    (h : op args = .ok v) :
    abortProgramOnAnyException exitCode op args = ⟨.ok v, [args], []⟩ := by
  simp [abortProgramOnAnyException, h]

theorem C7_failfast_witness :
    abortProgramOnAnyException 2
      (fun p : Nat × Nat => (Except.ok p : Except Failure (Nat × Nat))) (1, 2)
      = ⟨.ok (1, 2), [(1, 2)], []⟩ :=
  C7_failfast_passthrough 2 _ (1, 2) (1, 2) rfl

/-- Claim C8: throughout every terminating execution of the retry
wrapper with `timeoutSec > 0` against an always-failing retryable
failure (no filter configured, delays well-formed per §3): `elapsed`
advances only by completed sleep durations; the k-th (0-based) sleep
equals `min(initialRetryDelaySec * 2^k, maxRetryDelaySec)` with doubling
applied unconditionally and no clamped final delay; and the budget check
runs only after a failed attempt, so each sleep starts strictly under
the budget, the run ends with the budget reached or exceeded, and one
extra attempt is made past the last sleep. -/
theorem C8_execution_invariants (policy : RetryPolicy) (f : Failure)
    (fuel : Nat) (o : RetryOutcome Unit)
    (ht : 0 < policy.timeoutSec)
    (h0 : 0 ≤ policy.initialRetryDelaySec)
    (hdm : policy.initialRetryDelaySec ≤ policy.maxRetryDelaySec)
    (hr : isRetryable policy.retryExceptions f = true)
    (hfil : policy.retryFilter = none)
    (hrun : retry policy (alwaysFail f) fuel = some o) :
    o.elapsedFinal = o.sleeps.sum ∧
    (∀ k (hk : k < o.sleeps.length),
        o.sleeps.get ⟨k, hk⟩
          = min (policy.initialRetryDelaySec * 2 ^ k) policy.maxRetryDelaySec) ∧
    o.attempts = o.sleeps.length + 1 ∧
    (∀ k, k < o.sleeps.length → (o.sleeps.take k).sum < policy.timeoutSec) ∧
    policy.timeoutSec ≤ o.sleeps.sum := by
  have hacc : ∀ n e, passesFilter policy.retryFilter f n e = true := by
    intro n e
    rw [hfil]
    rfl
  simp only [retry, if_neg (not_le.mpr ht)] at hrun
  obtain ⟨hres, hatt, hel, hget, hpre, hbud⟩ :=
    retryLoop_alwaysFail_spec policy f hr hacc fuel 0
      policy.initialRetryDelaySec 0 o hrun
  refine ⟨by simpa using hel, ?_, hatt, ?_, by simpa using hbud⟩
  · intro k hk
    rw [hget k hk, delaySeq_closed _ _ h0 hdm]
  · intro k hk
    simpa using hpre k hk

/-- The always-failing retry run of claim C8's witness: the policy of
the unit test `testRetryWaitsInitialRetryDelaySec`. -/
def c8Policy : RetryPolicy :=
  { timeoutSec := 30, initialRetryDelaySec := 2, maxRetryDelaySec := 10 }

/-- The outcome of the C8 witness run. -/
def c8Outcome : RetryOutcome Unit :=
  ⟨.error testFailure, 6, [2, 4, 8, 10, 10], 34⟩

theorem C8_invariants_witness :
    c8Outcome.elapsedFinal = c8Outcome.sleeps.sum ∧
    (∀ k (hk : k < c8Outcome.sleeps.length),
        c8Outcome.sleeps.get ⟨k, hk⟩
          = min (c8Policy.initialRetryDelaySec * 2 ^ k) c8Policy.maxRetryDelaySec) ∧
    c8Outcome.attempts = c8Outcome.sleeps.length + 1 ∧
    (∀ k, k < c8Outcome.sleeps.length →
        (c8Outcome.sleeps.take k).sum < c8Policy.timeoutSec) ∧
    c8Policy.timeoutSec ≤ c8Outcome.sleeps.sum :=
  C8_execution_invariants c8Policy testFailure 6 c8Outcome
    (by norm_num [c8Policy]) (by norm_num [c8Policy]) (by norm_num [c8Policy])
    rfl rfl
    (by simp only [c8Policy, c8Outcome, retry, retryLoop, alwaysFail,
          isRetryable, passesFilter]
        norm_num)

/-- Claim C9: for an always-failing retryable operation under a
well-formed policy with `timeoutSec > 0` and no filter, the retry loop
terminates after finitely many attempts if and only if
`initialRetryDelaySec > 0`: a positive initial delay advances `elapsed`
by at least that much per sleep, so the budget is reached in finitely
many steps, while a zero initial delay keeps every delay at 0 and
`elapsed` never advances, so no amount of fuel finishes the loop. -/
theorem C9_termination_iff (policy : RetryPolicy) (f : Failure)
    (ht : 0 < policy.timeoutSec)
    (h0 : 0 ≤ policy.initialRetryDelaySec)
    (hdm : policy.initialRetryDelaySec ≤ policy.maxRetryDelaySec)
    (hr : isRetryable policy.retryExceptions f = true)
    (hfil : policy.retryFilter = none) :
    (∃ fuel o, retry policy (alwaysFail f) fuel = some o)
      ↔ 0 < policy.initialRetryDelaySec := by
  constructor
  · rintro ⟨fuel, o, ho⟩
    by_contra hnot
    have hz : policy.initialRetryDelaySec = 0 :=
      le_antisymm (not_lt.mp hnot) h0
    have hacc : ∀ n e, passesFilter policy.retryFilter f n e = true := by
      intro n e
      rw [hfil]
      rfl
    have hm : 0 ≤ policy.maxRetryDelaySec := by
      rw [hz] at hdm
      exact hdm
    simp only [retry, if_neg (not_le.mpr ht), hz] at ho
    rw [retryLoop_zeroDelay_none policy f ht hm hr hacc fuel 0] at ho
    exact Option.noConfusion ho
  · intro hpos
    exact retry_terminates_of_pos_delay policy (alwaysFail f) hpos hdm

theorem C9_termination_witness :
    (∃ fuel o,
        retry
          { timeoutSec := 30, initialRetryDelaySec := 2, maxRetryDelaySec := 10 }
          (alwaysFail testFailure) fuel = some o)
      ↔ (0 : ℚ) < 2 :=
  C9_termination_iff
    { timeoutSec := 30, initialRetryDelaySec := 2, maxRetryDelaySec := 10 }
    testFailure (by norm_num) (by norm_num) (by norm_num) rfl rfl

/-- Claim C10: in every terminating execution of the retry wrapper with
`timeoutSec > 0` against an always-failing failure that is retryable and
accepted by the filter (if any), the number of sleeps performed equals
the number of attempts minus one: every attempt after the first is
preceded by exactly one sleep and no sleep follows the final, propagated
failure. -/
theorem C10_sleeps_attempts (policy : RetryPolicy) (f : Failure)
    (fuel : Nat) (o : RetryOutcome Unit)
    (ht : 0 < policy.timeoutSec)
    (hr : isRetryable policy.retryExceptions f = true)
    (hacc : ∀ n e, passesFilter policy.retryFilter f n e = true)
    (hrun : retry policy (alwaysFail f) fuel = some o) :
    o.attempts = o.sleeps.length + 1 := by
  simp only [retry, if_neg (not_le.mpr ht)] at hrun
  exact (retryLoop_alwaysFail_spec policy f hr hacc fuel 0
    policy.initialRetryDelaySec 0 o hrun).2.1

theorem C10_sleeps_attempts_witness :
    (⟨.error childFailure, 2, [1], 1⟩ : RetryOutcome Unit).attempts
      = (⟨.error childFailure, 2, [1], 1⟩ : RetryOutcome Unit).sleeps.length + 1 :=
  C10_sleeps_attempts
    { timeoutSec := 1, initialRetryDelaySec := 1, maxRetryDelaySec := 10,
        retryExceptions := some [100], retryFilter := some fun _ _ _ => true }
    childFailure 2 ⟨.error childFailure, 2, [1], 1⟩
    (by norm_num) rfl (fun _ _ => rfl)
    (by simp only [retry, retryLoop, alwaysFail, isRetryable, passesFilter,
          childFailure]
        norm_num)
